import Mathlib

/-
Shallow embedding of the session/trust layer of the HealthbridgeAI backend:
`app/services/session_manager.py` (SessionManager), the session-validation
part of `app/auth.py` (get_current_user), and the logout handler of
`app/routers/auth_router.py`.

Modelling conventions:
- Wall-clock time (`time.time()`) is a natural number passed explicitly as
  `now`; within a single Python method the several `time.time()` reads are
  modelled as one instant.
- Python dicts appearing as session payloads are association lists where the
  LAST binding of a key wins, which matches dict-literal unpacking
  (`{**base, **extra}`: later keys override) and item assignment (append).
- The `in_memory_sessions` dict and the Redis keyspace keep unique keys, so
  their update is remove-then-append; only membership, lookup and counting
  are used by the properties, never enumeration order.
- The randomly generated `secrets.token_urlsafe(32)` session id is an
  explicit parameter of `create_session`.
- The Redis client is modelled by a keyspace plus a `redisUp` flag; when the
  flag is false every Redis command raises, so control takes the `except`
  branch of the corresponding method.  JSON serialisation round-trips are
  modelled as the identity.  The `session:` key namespace is dropped since
  the mapping sid to key is injective and inverted on every read.
-/

namespace Healthbridge

/-- Values stored in a session payload dict: strings or numeric timestamps. -/
inductive Val where
  | str (s : String)
  | num (n : Nat)
deriving DecidableEq, Repr

/-- A Python dict modelled as an association list; the last binding wins. -/
abbrev SDict := List (String × Val)

/-- Dict lookup: the last binding of the key wins (later `**`-merged or
assigned keys override earlier ones). -/
def dGet (d : SDict) (k : String) : Option Val :=
  (d.reverse.find? (fun p => p.1 == k)).map (fun p => p.2)

/-- Dict item assignment `d[k] = v`: with last-wins lookup, appending the new
binding realises the override. -/
def dSet (d : SDict) (k : String) (v : Val) : SDict :=
  d ++ [(k, v)]

/-- Whether a dict binds a key at all. -/
def hasKey (d : SDict) (k : String) : Bool :=
  d.any (fun p => p.1 == k)

/-- The `in_memory_sessions` fallback map: session id to payload dict. -/
abbrev SessStore := List (String × SDict)

/-- Lookup `self.in_memory_sessions.get(session_id)`. -/
def memGet (m : SessStore) (sid : String) : Option SDict :=
  (m.find? (fun p => p.1 == sid)).map (fun p => p.2)

/-- Assignment `self.in_memory_sessions[session_id] = data` (unique keys). -/
def memSet (m : SessStore) (sid : String) (d : SDict) : SessStore :=
  m.filter (fun p => p.1 != sid) ++ [(sid, d)]

/-- Deletion `del self.in_memory_sessions[session_id]`. -/
def memDel (m : SessStore) (sid : String) : SessStore :=
  m.filter (fun p => p.1 != sid)

/-- Membership `session_id in self.in_memory_sessions`. -/
def memHas (m : SessStore) (sid : String) : Bool :=
  m.any (fun p => p.1 == sid)

/-- One entry of the modelled Redis keyspace, with its native TTL expiry. -/
structure RedisEntry where
  key : String
  expiresAt : Nat
  data : SDict
deriving DecidableEq, Repr

/-- Redis `GET`: an entry whose TTL has elapsed is gone. -/
def rGet (r : List RedisEntry) (now : Nat) (k : String) : Option SDict :=
  match r.find? (fun e => e.key == k) with
  | some e => if now < e.expiresAt then some e.data else none
  | none => none

/-- Redis `SETEX key ttl value`. -/
def rSetex (r : List RedisEntry) (now : Nat) (k : String) (ttl : Nat) (d : SDict) :
    List RedisEntry :=
  r.filter (fun e => e.key != k) ++ [⟨k, now + ttl, d⟩]

/-- Redis `DELETE`: returns how many (live) keys were removed. -/
def rDel (r : List RedisEntry) (now : Nat) (k : String) : Nat × List RedisEntry :=
  match rGet r now k with
  | some _ => (1, r.filter (fun e => e.key != k))
  | none => (0, r.filter (fun e => e.key != k))

/-- State of a `SessionManager` instance.  `useRedis` is `use_redis`
(whether a Redis client was injected); `redisUp = false` means every call on
the client raises, driving each method into its `except` branch. -/
structure Mgr where
  timeout : Nat
  mem : SessStore
  useRedis : Bool
  redisUp : Bool
  redis : List RedisEntry
deriving DecidableEq, Repr

/-- A fresh in-memory-backend manager (`SessionManager(redis_client=None)`). -/
def mkMemMgr (T : Nat) : Mgr :=
  ⟨T, [], false, false, []⟩

/-- A manager holding a Redis client that raises on every command. -/
def mkRedisDownMgr (T : Nat) : Mgr :=
  ⟨T, [], true, false, []⟩

/-- The payload dict built at the top of `create_session`: the four base
fields, then `**(extra_data or {})` merged after them (later keys override). -/
def mkSessionData (now : Nat) (uid role : String) (extra : SDict) : SDict :=
  [("user_id", Val.str uid), ("role", Val.str role),
   ("created_at", Val.num now), ("last_activity", Val.num now)] ++ extra

/-- `SessionManager._store_in_memory`: set `expires_at` and store. -/
def storeInMemory (m : Mgr) (now : Nat) (sid : String) (data : SDict) : Mgr :=
  let data2 := dSet data "expires_at" (Val.num (now + m.timeout))
  { m with mem := memSet m.mem sid data2 }

/-- `SessionManager.create_session`; `sid` is the generated
`secrets.token_urlsafe(32)` value. -/
def createSession (m : Mgr) (now : Nat) (sid uid role : String) (extra : SDict) :
    String × Mgr :=
  let data := mkSessionData now uid role extra
  if m.useRedis then
    if m.redisUp then
      (sid, { m with redis := rSetex m.redis now sid m.timeout data })
    else
      (sid, storeInMemory m now sid data)
  else
    (sid, storeInMemory m now sid data)

/-- The read `session.get("expires_at", 0)` used in the expiry comparison. -/
def expiresAtOf (d : SDict) : Nat :=
  match dGet d "expires_at" with
  | some (Val.num n) => n
  | _ => 0

/-- `SessionManager._validate_in_memory`: expired entries are deleted and
reported as `None`; live entries get `last_activity` and `expires_at`
refreshed (sliding window) and are returned. -/
def validateInMemory (m : Mgr) (now : Nat) (sid : String) : Option SDict × Mgr :=
  match memGet m.mem sid with
  | some session =>
    if expiresAtOf session < now then
      (none, { m with mem := memDel m.mem sid })
    else
      let s2 := dSet (dSet session "last_activity" (Val.num now))
        "expires_at" (Val.num (now + m.timeout))
      (some s2, { m with mem := memSet m.mem sid s2 })
  | none => (none, m)

/-- `SessionManager.validate_session`. -/
def validateSession (m : Mgr) (now : Nat) (sid : String) : Option SDict × Mgr :=
  if m.useRedis then
    if m.redisUp then
      match rGet m.redis now sid with
      | some data =>
        let data2 := dSet data "last_activity" (Val.num now)
        (some data2, { m with redis := rSetex m.redis now sid m.timeout data2 })
      | none => (none, m)
    else
      validateInMemory m now sid
  else
    validateInMemory m now sid

/-- `SessionManager._invalidate_in_memory`. -/
def invalidateInMemory (m : Mgr) (sid : String) : Bool × Mgr :=
  if memHas m.mem sid then
    (true, { m with mem := memDel m.mem sid })
  else
    (false, m)

/-- `SessionManager.invalidate_session`. -/
def invalidateSession (m : Mgr) (now : Nat) (sid : String) : Bool × Mgr :=
  if m.useRedis then
    if m.redisUp then
      let r := rDel m.redis now sid
      (decide (0 < r.1), { m with redis := r.2 })
    else
      invalidateInMemory m sid
  else
    invalidateInMemory m sid

/-- Whether a stored payload belongs to the given user:
`data.get("user_id") == str(user_id)`. -/
def userMatch (uid : String) (d : SDict) : Bool :=
  dGet d "user_id" == some (Val.str uid)

/-- `SessionManager.get_user_sessions`.  On the Redis backend a raising
client makes the method return an empty list (its `except` branch); on the
in-memory backend it scans the fallback map with no expiry check. -/
def getUserSessions (m : Mgr) (now : Nat) (uid : String) : List String :=
  if m.useRedis then
    if m.redisUp then
      ((m.redis.filter (fun e =>
        ((rGet m.redis now e.key).map (userMatch uid)).getD false)).map
        (fun e => e.key))
    else
      []
  else
    (m.mem.filter (fun p => userMatch uid p.2)).map (fun p => p.1)

/-- The counting loop inside `invalidate_all_user_sessions`. -/
def invalidateLoop (now : Nat) : Mgr → List String → Nat → Nat × Mgr
  | m, [], count => (count, m)
  | m, sid :: rest, count =>
    let r := invalidateSession m now sid
    invalidateLoop now r.2 rest (if r.1 then count + 1 else count)

/-- `SessionManager.invalidate_all_user_sessions`. -/
def invalidateAllUserSessions (m : Mgr) (now : Nat) (uid : String) : Nat × Mgr :=
  invalidateLoop now m (getUserSessions m now uid) 0

/-- `SessionManager.cleanup_expired_sessions`: on the in-memory backend,
drop every entry whose stored expiry is strictly in the past. -/
def cleanupExpiredSessions (m : Mgr) (now : Nat) : Mgr :=
  if m.useRedis then
    m
  else
    { m with mem := m.mem.filter (fun p => ! decide (expiresAtOf p.2 < now)) }

/-- The stored expiry of a session in the fallback map, when present. -/
def expiryIn (m : Mgr) (sid : String) : Option Nat :=
  (memGet m.mem sid).map expiresAtOf

/-- The claims of a successfully signature-checked JWT payload as read by
`get_current_user`: `payload.get("sub")`, `payload.get("role")`,
`payload.get("session_id")`. -/
structure Payload where
  sub : Option String
  role : Option String
  session_id : Option String
deriving DecidableEq, Repr

/-- A row of the domain user store as returned by the database query in
`get_current_user`. -/
structure UserRec where
  user_id : String
  role : String
  is_active : Bool
deriving DecidableEq, Repr

/-- Outcome of `get_current_user`: the resolved user, the generic
`credentials_exception` (HTTP 401, could not validate credentials), or the
distinct `session_expired_exception` (HTTP 401, session expired). -/
inductive AuthOutcome where
  | ok (u : UserRec)
  | credentialsError
  | sessionExpired
deriving DecidableEq, Repr

/-- Result of one `get_current_user` run: its outcome, the session-manager
state afterwards, and whether `validate_session` was called at all. -/
structure AuthStep where
  outcome : AuthOutcome
  mgr : Mgr
  storeConsulted : Bool
deriving DecidableEq, Repr

/-- The tail of `get_current_user` after the session checks: `UUID(user_id_str)`
(raising `ValueError` on a malformed id), `TokenData` validation (raising a
`ValueError` subclass on a bad role claim), and the user query; every failure
lands in `credentials_exception`. -/
def afterSession (m : Mgr) (userIdStr : String) (role : Option String)
    (uuidOk : String → Bool) (roleOk : Option String → Bool)
    (db : String → Option UserRec) (consulted : Bool) : AuthStep :=
  if uuidOk userIdStr then
    if roleOk role then
      match db userIdStr with
      | some u => ⟨AuthOutcome.ok u, m, consulted⟩
      | none => ⟨AuthOutcome.credentialsError, m, consulted⟩
    else ⟨AuthOutcome.credentialsError, m, consulted⟩
  else ⟨AuthOutcome.credentialsError, m, consulted⟩

/-- `get_current_user` (auth.py).  `decoded = none` models `jwt.decode`
raising `JWTError`; `uuidOk` models whether `UUID(user_id_str)` parses;
`roleOk` models whether `TokenData` accepts the role claim; `db` models the
`User` table lookup.  The guard `if session_id:` is a Python truthiness test,
so both a missing claim and an empty-string claim skip session validation. -/
def getCurrentUser (m : Mgr) (now : Nat) (decoded : Option Payload)
    (uuidOk : String → Bool) (roleOk : Option String → Bool)
    (db : String → Option UserRec) : AuthStep :=
  match decoded with
  | none => ⟨AuthOutcome.credentialsError, m, false⟩
  | some payload =>
    match payload.sub with
    | none => ⟨AuthOutcome.credentialsError, m, false⟩
    | some userIdStr =>
      let sid := payload.session_id.getD ""
      if sid == "" then
        afterSession m userIdStr payload.role uuidOk roleOk db false
      else
        let r := validateSession m now sid
        match r.1 with
        | none => ⟨AuthOutcome.sessionExpired, r.2, true⟩
        | some sessionData =>
          if dGet sessionData "user_id" != some (Val.str userIdStr) then
            ⟨AuthOutcome.credentialsError, r.2, true⟩
          else
            afterSession r.2 userIdStr payload.role uuidOk roleOk db true

/-- Body of the logout JSON response. -/
structure LogoutResponse where
  message : String
  session_invalidated : Bool
deriving DecidableEq, Repr

/-- What a request handler produced: a successful (HTTP 200) response, or an
error escaping the handler. -/
inductive HttpReply where
  | success (r : LogoutResponse)
  | raised
deriving DecidableEq, Repr

/-- The `logout` handler body (auth_router.py).  `decoded = none` models
`jwt.decode` raising inside the `try`; `invalidateOutcome` is the behaviour
of `session_manager.invalidate_session(session_id)`: `Except.ok b` means it
returned `b`, `Except.error ()` means it raised.  Any exception lands in the
`except` branch, which still returns a success body. -/
def logout (decoded : Option Payload) (invalidateOutcome : Except Unit Bool) :
    HttpReply :=
  match decoded with
  | none => HttpReply.success ⟨"Logged out", false⟩
  | some payload =>
    if payload.session_id.getD "" == "" then
      HttpReply.success ⟨"Logged out (no active session)", false⟩
    else
      match invalidateOutcome with
      | Except.ok true => HttpReply.success ⟨"Logged out successfully", true⟩
      | Except.ok false =>
        HttpReply.success ⟨"Session not found or already expired", false⟩
      | Except.error _ => HttpReply.success ⟨"Logged out", false⟩

/-- Test fixture: a UUID parser accepting every subject string. -/
def uuidAlways : String → Bool := fun _ => true

/-- Test fixture: a `TokenData` role check accepting every role claim. -/
def roleAlways : Option String → Bool := fun _ => true

/-- Test fixture: a user table holding only the active patient `u1`. -/
def dbU1 : String → Option UserRec :=
  fun s => if s == "u1" then some ⟨"u1", "PATIENT", true⟩ else none

/-- Test fixture: an empty user table. -/
def dbNone : String → Option UserRec := fun _ => none

/-- Checks that consecutive instants of a validation schedule are
nondecreasing and spaced strictly less than `T` apart. -/
def gapsOk (T : Nat) : List Nat → Bool
  | a :: b :: rest => decide (a ≤ b) && decide (b < a + T) && gapsOk T (b :: rest)
  | _ => true

/-- The last instant of the schedule `a :: ts`. -/
def lastOf (a : Nat) : List Nat → Nat
  | [] => a
  | b :: rest => lastOf b rest

/-- Call `validate_session` at each instant in turn; the flag records whether
every call returned a record. -/
def slidingRun (sid : String) : Mgr → List Nat → Bool × Mgr
  | m, [] => (true, m)
  | m, t :: ts =>
    let r := validateSession m t sid
    if r.1.isSome then slidingRun sid r.2 ts else (false, r.2)

/-! ### Basic lemmas about the dict and map models -/

theorem dGet_dSet_self (d : SDict) (k : String) (v : Val) :
    dGet (dSet d k v) k = some v := by
  simp [dGet, dSet, List.find?_cons_of_pos]

theorem dGet_dSet_ne (d : SDict) (k k2 : String) (v : Val) (h : k2 ≠ k) :
    dGet (dSet d k v) k2 = dGet d k2 := by
  have hb : (k == k2) = false := by
    simp [Ne.symm h]
  simp [dGet, dSet, List.find?_cons_of_neg, hb]

theorem dGet_append_right (l1 l2 : SDict) (k : String) (h : hasKey l2 k = false) :
    dGet (l1 ++ l2) k = dGet l1 k := by
  have h3 : l2.any (fun p => p.1 == k) = false := h
  have hn : l2.reverse.find? (fun p => p.1 == k) = none := by
    rw [List.find?_eq_none]
    intro p hp
    exact List.any_eq_false.mp h3 p (List.mem_reverse.mp hp)
  simp [dGet, List.find?_append, hn]

theorem memGet_eq_none_of_memHas (m : SessStore) (sid : String)
    (h : memHas m sid = false) : memGet m sid = none := by
  have h3 : m.any (fun p => p.1 == sid) = false := h
  have hn : m.find? (fun p => p.1 == sid) = none := by
    rw [List.find?_eq_none]
    intro p hp
    exact List.any_eq_false.mp h3 p hp
  simp [memGet, hn]

theorem memGet_isSome_of_memHas (m : SessStore) (sid : String)
    (h : memHas m sid = true) : (memGet m sid).isSome = true := by
  have h3 : m.any (fun p => p.1 == sid) = true := h
  rcases List.any_eq_true.mp h3 with ⟨p, hp, hk⟩
  have h4 : (m.find? (fun p => p.1 == sid)).isSome :=
    List.find?_isSome.mpr ⟨p, hp, hk⟩
  unfold memGet
  cases hf : m.find? (fun p => p.1 == sid) with
  | none => rw [hf] at h4; simp at h4
  | some q => simp

theorem find?_filter_of_ne (m : SessStore) (sid sid2 : String) (h : sid2 ≠ sid) :
    (m.filter (fun p => p.1 != sid)).find? (fun p => p.1 == sid2) =
      m.find? (fun p => p.1 == sid2) := by
  induction m with
  | nil => rfl
  | cons a rest ih =>
    by_cases hk : a.1 = sid
    · have h2 : (a.1 == sid2) = false := by simp [hk, Ne.symm h]
      rw [List.filter_cons, if_neg (by simp [hk])]
      rw [ih]
      simp only [List.find?_cons, h2]
    · by_cases hk2 : a.1 = sid2
      · have h2 : (a.1 == sid2) = true := by simp [hk2]
        rw [List.filter_cons, if_pos (by simp [hk])]
        simp only [List.find?_cons, h2]
      · have h2 : (a.1 == sid2) = false := by simp [hk2]
        rw [List.filter_cons, if_pos (by simp [hk])]
        simp only [List.find?_cons, h2]
        exact ih

theorem find?_filter_self (m : SessStore) (sid : String) :
    (m.filter (fun p => p.1 != sid)).find? (fun p => p.1 == sid) = none := by
  rw [List.find?_eq_none]
  intro p hp
  have := (List.mem_filter.1 hp).2
  simpa using this

theorem memGet_memSet_self (m : SessStore) (sid : String) (d : SDict) :
    memGet (memSet m sid d) sid = some d := by
  simp [memGet, memSet, List.find?_append, find?_filter_self]

theorem memGet_memSet_ne (m : SessStore) (sid sid2 : String) (d : SDict)
    (h : sid2 ≠ sid) : memGet (memSet m sid d) sid2 = memGet m sid2 := by
  have h2 : (sid == sid2) = false := by simp [Ne.symm h]
  simp [memGet, memSet, List.find?_append, find?_filter_of_ne m sid sid2 h, h2]

theorem memGet_memDel_self (m : SessStore) (sid : String) :
    memGet (memDel m sid) sid = none := by
  simp [memGet, memDel, find?_filter_self]

theorem memGet_memDel_ne (m : SessStore) (sid sid2 : String) (h : sid2 ≠ sid) :
    memGet (memDel m sid) sid2 = memGet m sid2 := by
  simp [memGet, memDel, find?_filter_of_ne m sid sid2 h]

theorem expiresAtOf_dSet (d : SDict) (e : Nat) :
    expiresAtOf (dSet d "expires_at" (Val.num e)) = e := by
  simp [expiresAtOf, dGet_dSet_self]

/-! ### Sliding-window run of repeated validations -/

theorem validateSession_mem_some (m : Mgr) (now : Nat) (sid : String) (d : SDict)
    (hr : m.useRedis = false) (hget : memGet m.mem sid = some d)
    (hexp : ¬ expiresAtOf d < now) :
    validateSession m now sid =
      (some (dSet (dSet d "last_activity" (Val.num now)) "expires_at"
          (Val.num (now + m.timeout))),
        { m with mem := memSet m.mem sid (dSet (dSet d "last_activity" (Val.num now))
          "expires_at" (Val.num (now + m.timeout))) }) := by
  simp [validateSession, hr, validateInMemory, hget, hexp]

theorem slidingRun_alive (sid : String) (T : Nat) (ts : List Nat) :
    ∀ (m : Mgr) (cur : Nat) (d : SDict),
      m.useRedis = false → m.timeout = T →
      memGet m.mem sid = some d → expiresAtOf d = cur + T →
      gapsOk T (cur :: ts) = true →
      (slidingRun sid m ts).1 = true ∧
      (slidingRun sid m ts).2.useRedis = false ∧
      (slidingRun sid m ts).2.timeout = T ∧
      expiryIn (slidingRun sid m ts).2 sid = some (lastOf cur ts + T) := by
  induction ts with
  | nil =>
    intro m cur d hr hT hget hexp _
    simp [slidingRun, lastOf, expiryIn, hget, hexp, hr, hT]
  | cons t ts ih =>
    intro m cur d hr hT hget hexp hgaps
    have hg : cur ≤ t ∧ t < cur + T ∧ gapsOk T (t :: ts) = true := by
      have := hgaps
      simp only [gapsOk, Bool.and_eq_true, decide_eq_true_eq] at this
      exact ⟨this.1.1, this.1.2, this.2⟩
    have hexp2 : ¬ expiresAtOf d < t := by
      rw [hexp]; omega
    have hval := validateSession_mem_some m t sid d hr hget hexp2
    rw [slidingRun]
    simp only [hval, Option.isSome_some, if_true]
    have hnext := ih { m with mem := memSet m.mem sid (dSet (dSet d "last_activity"
        (Val.num t)) "expires_at" (Val.num (t + m.timeout))) } t
      (dSet (dSet d "last_activity" (Val.num t)) "expires_at" (Val.num (t + m.timeout)))
      hr hT (memGet_memSet_self _ _ _) (by rw [expiresAtOf_dSet, hT]) hg.2.2
    simpa [lastOf] using hnext

/-- C1 (amended): on the in-memory backend, a session validated at instants
spaced strictly less than `timeout` apart stays alive for the whole run, each
successful validation stores the recomputed expiry `now + timeout`, and a gap
STRICTLY greater than `timeout` after the last validation makes the next
`validate_session` return `None`.  (A gap of exactly `timeout` does not
expire the session, see the counterexample.) -/
theorem validate_sliding_window (m0 : Mgr) (uid role sid : String) (extra : SDict)
    (t0 : Nat) (ts : List Nat) (tLate : Nat)
    (hr : m0.useRedis = false)
    (hgaps : gapsOk m0.timeout (t0 :: ts) = true)
    (hlate : lastOf t0 ts + m0.timeout < tLate) :
    (slidingRun sid (createSession m0 t0 sid uid role extra).2 ts).1 = true ∧
    expiryIn (slidingRun sid (createSession m0 t0 sid uid role extra).2 ts).2 sid =
      some (lastOf t0 ts + m0.timeout) ∧
    (validateSession (slidingRun sid (createSession m0 t0 sid uid role extra).2 ts).2
      tLate sid).1 = none := by
  have hm1 : (createSession m0 t0 sid uid role extra).2 =
      { m0 with mem := memSet m0.mem sid (dSet (mkSessionData t0 uid role extra)
        "expires_at" (Val.num (t0 + m0.timeout))) } := by
    simp [createSession, hr, storeInMemory]
  have halive := slidingRun_alive sid m0.timeout ts
    (createSession m0 t0 sid uid role extra).2 t0
    (dSet (mkSessionData t0 uid role extra) "expires_at" (Val.num (t0 + m0.timeout)))
    (by rw [hm1]; exact hr) (by rw [hm1])
    (by rw [hm1]; exact memGet_memSet_self _ _ _)
    (expiresAtOf_dSet _ _) hgaps
  obtain ⟨hrun, hur, hT, hexpk⟩ := halive
  refine ⟨hrun, hexpk, ?_⟩
  unfold expiryIn at hexpk
  cases hmg : memGet (slidingRun sid (createSession m0 t0 sid uid role extra).2 ts).2.mem
      sid with
  | none => rw [hmg] at hexpk; simp at hexpk
  | some d2 =>
    rw [hmg] at hexpk
    simp only [Option.map_some', Option.some.injEq] at hexpk
    have hcond : expiresAtOf d2 < tLate := by rw [hexpk]; exact hlate
    simp [validateSession, hur, validateInMemory, hmg, hcond]

/-- Witness instantiating the sliding-window theorem: timeout 900, creation
at 0, validations at 100 and 600, late validation at 2000. -/
theorem validate_sliding_window_witness :
    (slidingRun "s1" (createSession (mkMemMgr 900) 0 "s1" "u1" "PATIENT" []).2
      [100, 600]).1 = true ∧
    expiryIn (slidingRun "s1" (createSession (mkMemMgr 900) 0 "s1" "u1" "PATIENT" []).2
      [100, 600]).2 "s1" = some (lastOf 0 [100, 600] + 900) ∧
    (validateSession (slidingRun "s1"
      (createSession (mkMemMgr 900) 0 "s1" "u1" "PATIENT" []).2 [100, 600]).2
      2000 "s1").1 = none :=
  validate_sliding_window (mkMemMgr 900) "u1" "PATIENT" "s1" [] 0 [100, 600] 2000
    rfl (by decide) (by decide)

/-- C1 counterexample to the claim as stated: with `timeout = 900`, a session
created at instant 0 and next validated at instant 900 — a gap of exactly
`timeout_seconds`, hence at least `timeout_seconds` — is still reported
alive, because the expiry test `time.time() > expires_at` is strict. -/
theorem validate_gap_eq_timeout_alive :
    (mkMemMgr 900).timeout ≤ 900 - 0 ∧
    ((validateSession (createSession (mkMemMgr 900) 0 "s1" "u1" "PATIENT" []).2
      900 "s1").1).isSome = true := by decide

/-! ### Invalidation (claims C2, C3) -/

theorem memHas_eq_isSome (m : SessStore) (sid : String) :
    memHas m sid = (memGet m sid).isSome := by
  cases h : memHas m sid
  · rw [memGet_eq_none_of_memHas m sid h]; rfl
  · rw [memGet_isSome_of_memHas m sid h]

/-- C2: on the in-memory backend, `invalidate_session` returns whether a
record for the id was present at the time of the call, and a subsequent
`validate_session` at any instant reports `None`, regardless of the TTL the
record had left. -/
theorem invalidate_then_validate (m : Mgr) (now now2 : Nat) (sid : String)
    (hr : m.useRedis = false) :
    (invalidateSession m now sid).1 = memHas m.mem sid ∧
    (validateSession (invalidateSession m now sid).2 now2 sid).1 = none := by
  cases hmh : memHas m.mem sid
  · have hg := memGet_eq_none_of_memHas m.mem sid hmh
    constructor
    · simp [invalidateSession, hr, invalidateInMemory, hmh]
    · simp [invalidateSession, hr, invalidateInMemory, hmh, validateSession,
        validateInMemory, hg]
  · constructor
    · simp [invalidateSession, hr, invalidateInMemory, hmh]
    · simp [invalidateSession, hr, invalidateInMemory, hmh, validateSession,
        validateInMemory, memGet_memDel_self]

/-- Witness: invalidating a freshly created session reports `true` and the
follow-up validation reports `None`. -/
theorem invalidate_then_validate_witness :
    (invalidateSession (createSession (mkMemMgr 900) 0 "s1" "u1" "PATIENT" []).2
      5 "s1").1 =
      memHas (createSession (mkMemMgr 900) 0 "s1" "u1" "PATIENT" []).2.mem "s1" ∧
    (validateSession (invalidateSession
      (createSession (mkMemMgr 900) 0 "s1" "u1" "PATIENT" []).2 5 "s1").2 6 "s1").1 =
      none :=
  invalidate_then_validate (createSession (mkMemMgr 900) 0 "s1" "u1" "PATIENT" []).2
    5 6 "s1" rfl

theorem memHas_memDel_ne (m : SessStore) (sid t : String) (h : t ≠ sid) :
    memHas (memDel m sid) t = memHas m t := by
  rw [memHas_eq_isSome, memHas_eq_isSome, memGet_memDel_ne m sid t h]

theorem keys_inj (l : SessStore) (h : (l.map Prod.fst).Nodup) :
    ∀ p ∈ l, ∀ q ∈ l, p.1 = q.1 → p = q := by
  induction l with
  | nil => intro p hp; cases hp
  | cons a rest ih =>
    intro p hp q hq heq
    simp only [List.map_cons] at h
    have hnd := List.nodup_cons.mp h
    rcases List.mem_cons.mp hp with hpa | hpr
    · rcases List.mem_cons.mp hq with hqa | hqr
      · rw [hpa, hqa]
      · exfalso
        apply hnd.1
        have : a.1 = q.1 := by rw [← heq, hpa]
        rw [this]
        exact List.mem_map_of_mem Prod.fst hqr
    · rcases List.mem_cons.mp hq with hqa | hqr
      · exfalso
        apply hnd.1
        have : a.1 = p.1 := by rw [heq, hqa]
        rw [this]
        exact List.mem_map_of_mem Prod.fst hpr
      · exact ih hnd.2 p hpr q hqr heq

theorem invalidateLoop_spec (now : Nat) (sids : List String) :
    ∀ (m : Mgr) (c : Nat),
      m.useRedis = false →
      sids.Nodup →
      (∀ s ∈ sids, memHas m.mem s = true) →
      (invalidateLoop now m sids c).1 = c + sids.length ∧
      (invalidateLoop now m sids c).2 =
        { m with mem := m.mem.filter (fun p => ! (sids.contains p.1)) } := by
  induction sids with
  | nil =>
    intro m c _ _ _
    simp [invalidateLoop]
  | cons s rest ih =>
    intro m c hr hnd hall
    have hs : memHas m.mem s = true := hall s (List.mem_cons_self s rest)
    have hinv : invalidateSession m now s = (true, { m with mem := memDel m.mem s }) := by
      simp [invalidateSession, hr, invalidateInMemory, hs]
    have hnd2 := List.nodup_cons.mp hnd
    have hall2 : ∀ t ∈ rest, memHas (memDel m.mem s) t = true := by
      intro t ht
      have hts : t ≠ s := fun he => hnd2.1 (he ▸ ht)
      rw [memHas_memDel_ne m.mem s t hts]
      exact hall t (List.mem_cons_of_mem s ht)
    obtain ⟨h1, h2⟩ := ih { m with mem := memDel m.mem s } (c + 1) hr hnd2.2 hall2
    rw [invalidateLoop]
    simp only [hinv, if_true]
    constructor
    · rw [h1]
      simp [List.length_cons]
      omega
    · rw [h2]
      congr 1
      rw [memDel, List.filter_filter]
      apply List.filter_congr
      intro p _
      by_cases hps : p.1 = s
      · simp [List.contains_cons, hps]
      · by_cases hpr : p.1 ∈ rest
        · simp [List.contains_cons, hps, hpr]
        · simp [List.contains_cons, hps, hpr]

/-- C3: on the in-memory backend, `invalidate_all_user_sessions` returns the
number of sessions whose stored `user_id` is the subject, leaves the store
holding exactly the sessions of other subjects (unchanged), and afterwards
the subject has no enumerable session left. -/
theorem invalidate_all_scope (m : Mgr) (now : Nat) (uid : String)
    (hr : m.useRedis = false) (hnd : (m.mem.map Prod.fst).Nodup) :
    (invalidateAllUserSessions m now uid).1 =
      (m.mem.filter (fun p => userMatch uid p.2)).length ∧
    (invalidateAllUserSessions m now uid).2 =
      { m with mem := m.mem.filter (fun p => ! userMatch uid p.2) } ∧
    getUserSessions (invalidateAllUserSessions m now uid).2 now uid = [] := by
  have hsids : getUserSessions m now uid =
      (m.mem.filter (fun p => userMatch uid p.2)).map Prod.fst := by
    simp [getUserSessions, hr]
  have hnd2 : ((m.mem.filter (fun p => userMatch uid p.2)).map Prod.fst).Nodup := by
    apply List.Nodup.sublist _ hnd
    exact List.Sublist.map Prod.fst (List.filter_sublist m.mem)
  have hall : ∀ s ∈ (m.mem.filter (fun p => userMatch uid p.2)).map Prod.fst,
      memHas m.mem s = true := by
    intro s hsmem
    rcases List.mem_map.mp hsmem with ⟨p, hpf, hp1⟩
    have hpm : p ∈ m.mem := List.mem_of_mem_filter hpf
    apply List.any_eq_true.mpr
    exact ⟨p, hpm, by simp [hp1]⟩
  obtain ⟨h1, h2⟩ := invalidateLoop_spec now
    ((m.mem.filter (fun p => userMatch uid p.2)).map Prod.fst) m 0 hr hnd2 hall
  have hpt : ∀ p ∈ m.mem,
      (((m.mem.filter (fun q => userMatch uid q.2)).map Prod.fst).contains p.1) =
        userMatch uid p.2 := by
    intro p hpm
    cases hum : userMatch uid p.2 with
    | false =>
      apply Bool.eq_false_iff.mpr
      intro hc
      have hmem : p.1 ∈ (m.mem.filter (fun q => userMatch uid q.2)).map Prod.fst := by
        simpa using hc
      rcases List.mem_map.mp hmem with ⟨q, hqf, hq1⟩
      have hqm : q ∈ m.mem := List.mem_of_mem_filter hqf
      have hqmatch : userMatch uid q.2 = true := (List.mem_filter.mp hqf).2
      have hqp : q = p := keys_inj m.mem hnd q hqm p hpm hq1
      rw [hqp, hum] at hqmatch
      exact Bool.false_ne_true hqmatch
    | true =>
      have hpf : p ∈ m.mem.filter (fun q => userMatch uid q.2) :=
        List.mem_filter.mpr ⟨hpm, hum⟩
      have hmem := List.mem_map_of_mem Prod.fst hpf
      simpa using hmem
  have hfeq : m.mem.filter (fun p =>
      ! (((m.mem.filter (fun q => userMatch uid q.2)).map Prod.fst).contains p.1)) =
      m.mem.filter (fun p => ! userMatch uid p.2) :=
    List.filter_congr (fun p hp => by rw [hpt p hp])
  rw [invalidateAllUserSessions, hsids]
  refine ⟨?_, ?_, ?_⟩
  · rw [h1]
    simp [List.length_map]
  · rw [h2, hfeq]
  · rw [h2, hfeq]
    simp [getUserSessions, hr, List.filter_filter]

/-- Witness: two subjects, three sessions; invalidating all of `u1` removes
both `u1` sessions, keeps the `u2` session, and counts 2. -/
theorem invalidate_all_scope_witness :
    (invalidateAllUserSessions (createSession ((createSession ((createSession
      (mkMemMgr 900) 0 "a" "u1" "PATIENT" []).2) 0 "b" "u2" "PATIENT" []).2)
      0 "c" "u1" "PATIENT" []).2 1 "u1").1 =
      ((createSession ((createSession ((createSession
        (mkMemMgr 900) 0 "a" "u1" "PATIENT" []).2) 0 "b" "u2" "PATIENT" []).2)
        0 "c" "u1" "PATIENT" []).2.mem.filter (fun p => userMatch "u1" p.2)).length ∧
    (invalidateAllUserSessions (createSession ((createSession ((createSession
      (mkMemMgr 900) 0 "a" "u1" "PATIENT" []).2) 0 "b" "u2" "PATIENT" []).2)
      0 "c" "u1" "PATIENT" []).2 1 "u1").2 =
      { (createSession ((createSession ((createSession
          (mkMemMgr 900) 0 "a" "u1" "PATIENT" []).2) 0 "b" "u2" "PATIENT" []).2)
          0 "c" "u1" "PATIENT" []).2 with
        mem := (createSession ((createSession ((createSession
          (mkMemMgr 900) 0 "a" "u1" "PATIENT" []).2) 0 "b" "u2" "PATIENT" []).2)
          0 "c" "u1" "PATIENT" []).2.mem.filter (fun p => ! userMatch "u1" p.2) } ∧
    getUserSessions (invalidateAllUserSessions (createSession ((createSession
      ((createSession (mkMemMgr 900) 0 "a" "u1" "PATIENT" []).2) 0 "b" "u2"
      "PATIENT" []).2) 0 "c" "u1" "PATIENT" []).2 1 "u1").2 1 "u1" = [] :=
  invalidate_all_scope (createSession ((createSession ((createSession
    (mkMemMgr 900) 0 "a" "u1" "PATIENT" []).2) 0 "b" "u2" "PATIENT" []).2)
    0 "c" "u1" "PATIENT" []).2 1 "u1" rfl (by decide)

/-! ### Create-then-validate (claim C5) -/

theorem validateInMemory_some (m : Mgr) (now : Nat) (sid : String) (d : SDict)
    (hget : memGet m.mem sid = some d) (hexp : ¬ expiresAtOf d < now) :
    validateInMemory m now sid =
      (some (dSet (dSet d "last_activity" (Val.num now)) "expires_at"
          (Val.num (now + m.timeout))),
        { m with mem := memSet m.mem sid (dSet (dSet d "last_activity" (Val.num now))
          "expires_at" (Val.num (now + m.timeout))) }) := by
  simp [validateInMemory, hget, hexp]

theorem dGet_mkSessionData_user (now : Nat) (uid role : String) (extra : SDict)
    (hu : hasKey extra "user_id" = false) :
    dGet (mkSessionData now uid role extra) "user_id" = some (Val.str uid) := by
  rw [mkSessionData, dGet_append_right _ _ _ hu]
  rfl

theorem dGet_mkSessionData_role (now : Nat) (uid role : String) (extra : SDict)
    (hrole : hasKey extra "role" = false) :
    dGet (mkSessionData now uid role extra) "role" = some (Val.str role) := by
  rw [mkSessionData, dGet_append_right _ _ _ hrole]
  rfl

/-- C5 (amended): validating immediately after creation succeeds and returns
the supplied subject and role, provided the extra data does not itself bind
the `user_id` or `role` keys: the source merges `**(extra_data or {})` after
the base fields, so extra keys override them. -/
theorem create_then_validate (m : Mgr) (now : Nat) (sid uid role : String)
    (extra : SDict) (hr : m.useRedis = false)
    (hu : hasKey extra "user_id" = false) (hrole : hasKey extra "role" = false) :
    ∃ d, (validateSession (createSession m now sid uid role extra).2 now sid).1 =
        some d ∧
      dGet d "user_id" = some (Val.str uid) ∧
      dGet d "role" = some (Val.str role) := by
  have hm1 : (createSession m now sid uid role extra).2 =
      { m with mem := memSet m.mem sid (dSet (mkSessionData now uid role extra)
        "expires_at" (Val.num (now + m.timeout))) } := by
    simp [createSession, hr, storeInMemory]
  have hval := validateSession_mem_some (createSession m now sid uid role extra).2 now
    sid (dSet (mkSessionData now uid role extra) "expires_at" (Val.num (now + m.timeout)))
    (by rw [hm1]; exact hr)
    (by rw [hm1]; exact memGet_memSet_self _ _ _)
    (by rw [expiresAtOf_dSet]; omega)
  refine ⟨_, by rw [hval], ?_, ?_⟩
  · rw [dGet_dSet_ne _ _ _ _ (by decide), dGet_dSet_ne _ _ _ _ (by decide),
      dGet_dSet_ne _ _ _ _ (by decide)]
    exact dGet_mkSessionData_user now uid role extra hu
  · rw [dGet_dSet_ne _ _ _ _ (by decide), dGet_dSet_ne _ _ _ _ (by decide),
      dGet_dSet_ne _ _ _ _ (by decide)]
    exact dGet_mkSessionData_role now uid role extra hrole

/-- Witness: create with empty extra data, validate at the same instant. -/
theorem create_then_validate_witness :
    ∃ d, (validateSession (createSession (mkMemMgr 900) 7 "s1" "u1" "DOCTOR" []).2
        7 "s1").1 = some d ∧
      dGet d "user_id" = some (Val.str "u1") ∧
      dGet d "role" = some (Val.str "DOCTOR") :=
  create_then_validate (mkMemMgr 900) 7 "s1" "u1" "DOCTOR" [] rfl rfl rfl

/-- C5 counterexample to the claim as stated: with
`extra_data = {"user_id": "u2"}`, validate-after-create returns a record
whose `user_id` is `u2`, not the `u1` supplied at creation, because the
dict merge lets `extra_data` override the base fields. -/
theorem create_then_validate_override :
    dGet (((validateSession (createSession (mkMemMgr 900) 0 "s1" "u1" "PATIENT"
        [("user_id", Val.str "u2")]).2 0 "s1").1).getD []) "user_id" =
      some (Val.str "u2") ∧
    dGet (((validateSession (createSession (mkMemMgr 900) 0 "s1" "u1" "PATIENT"
        [("user_id", Val.str "u2")]).2 0 "s1").1).getD []) "user_id" ≠
      some (Val.str "u1") := by decide

/-! ### Expiry and enumeration on the fallback backend (claim C7) -/

/-- C7 (amended): on the in-memory backend, pruning of expired entries is
done by `cleanup_expired_sessions`, not by `get_user_sessions`; after a
cleanup at instant `now`, every session the enumeration returns still has a
stored expiry of at least `now`. -/
theorem cleanup_then_enumerate (m : Mgr) (now : Nat) (uid sid : String)
    (hr : m.useRedis = false)
    (hmem : sid ∈ getUserSessions (cleanupExpiredSessions m now) now uid) :
    ∃ e, expiryIn (cleanupExpiredSessions m now) sid = some e ∧ now ≤ e := by
  have hc : cleanupExpiredSessions m now =
      { m with mem := m.mem.filter (fun p => ! decide (expiresAtOf p.2 < now)) } := by
    simp [cleanupExpiredSessions, hr]
  rw [hc] at hmem ⊢
  simp only [getUserSessions, hr, if_neg (by simp [hr] : ¬ m.useRedis = true)] at hmem
  rcases List.mem_map.mp hmem with ⟨p, hpf, hp1⟩
  have hpc : p ∈ m.mem.filter (fun q => ! decide (expiresAtOf q.2 < now)) :=
    List.mem_of_mem_filter hpf
  have hhas : memHas (m.mem.filter (fun q => ! decide (expiresAtOf q.2 < now))) sid
      = true :=
    List.any_eq_true.mpr ⟨p, hpc, by simp [hp1]⟩
  have hsome := memGet_isSome_of_memHas _ sid hhas
  unfold expiryIn
  cases hg : memGet (m.mem.filter (fun q => ! decide (expiresAtOf q.2 < now))) sid with
  | none => rw [hg] at hsome; simp at hsome
  | some d =>
    refine ⟨expiresAtOf d, by simp [hg], ?_⟩
    have hfind := hg
    unfold memGet at hfind
    cases hf : List.find? (fun p => p.1 == sid)
        (m.mem.filter (fun q => ! decide (expiresAtOf q.2 < now))) with
    | none => rw [hf] at hfind; simp at hfind
    | some q =>
      rw [hf] at hfind
      simp only [Option.map_some', Option.some.injEq] at hfind
      have hqm := List.mem_of_find?_eq_some hf
      have hkeep : (! decide (expiresAtOf q.2 < now)) = true :=
        (List.mem_filter.mp hqm).2
      rw [← hfind]
      simp only [Bool.not_eq_true', decide_eq_false_iff_not, Nat.not_lt] at hkeep
      exact hkeep

/-- Witness: a live session survives cleanup and is enumerated with its
expiry still ahead of the clock. -/
theorem cleanup_then_enumerate_witness :
    ∃ e, expiryIn (cleanupExpiredSessions
        (createSession (mkMemMgr 900) 0 "s1" "u1" "PATIENT" []).2 100) "s1" =
      some e ∧ 100 ≤ e :=
  cleanup_then_enumerate (createSession (mkMemMgr 900) 0 "s1" "u1" "PATIENT" []).2
    100 "u1" "s1" rfl (by decide)

/-- C7 counterexample to the claim as stated: a session created at instant 0
with timeout 900 has elapsed by instant 1000, yet `get_user_sessions` still
returns it — the in-memory enumeration never checks `expires_at`. -/
theorem get_user_sessions_returns_expired :
    "s1" ∈ getUserSessions (createSession (mkMemMgr 900) 0 "s1" "u1" "PATIENT" []).2
      1000 "u1" ∧
    expiryIn (createSession (mkMemMgr 900) 0 "s1" "u1" "PATIENT" []).2 "s1" =
      some 900 ∧
    900 < 1000 := by decide

/-! ### Behaviour when the primary store raises (claim C4) -/

/-- C4 (amended): when every Redis call raises, `create_session`,
`validate_session` and `invalidate_session` complete through the in-memory
fallback map with no error surfaced (and create-then-validate round-trips);
but `get_user_sessions` returns the empty list instead of consulting the
fallback map, so `invalidate_all_user_sessions` invalidates nothing and
leaves the manager unchanged. -/
theorem redis_down_fallback (m : Mgr) (now : Nat) (sid uid role : String)
    (extra : SDict) (hur : m.useRedis = true) (hdown : m.redisUp = false) :
    (createSession m now sid uid role extra).2 =
      storeInMemory m now sid (mkSessionData now uid role extra) ∧
    ((validateSession (createSession m now sid uid role extra).2 now sid).1).isSome
      = true ∧
    validateSession m now sid = validateInMemory m now sid ∧
    invalidateSession m now sid = invalidateInMemory m sid ∧
    getUserSessions m now uid = [] ∧
    invalidateAllUserSessions m now uid = (0, m) := by
  have hc : (createSession m now sid uid role extra).2 =
      storeInMemory m now sid (mkSessionData now uid role extra) := by
    simp [createSession, hur, hdown]
  refine ⟨hc, ?_, ?_, ?_, ?_, ?_⟩
  · have hur2 : (createSession m now sid uid role extra).2.useRedis = true := by
      rw [hc]; exact hur
    have hdown2 : (createSession m now sid uid role extra).2.redisUp = false := by
      rw [hc]; exact hdown
    have hget : memGet (createSession m now sid uid role extra).2.mem sid =
        some (dSet (mkSessionData now uid role extra) "expires_at"
          (Val.num (now + m.timeout))) := by
      rw [hc]; exact memGet_memSet_self _ _ _
    have hv : validateSession (createSession m now sid uid role extra).2 now sid =
        validateInMemory (createSession m now sid uid role extra).2 now sid := by
      simp [validateSession, hur2, hdown2]
    rw [hv, validateInMemory_some _ now sid _ hget (by rw [expiresAtOf_dSet]; omega)]
    rfl
  · simp [validateSession, hur, hdown]
  · simp [invalidateSession, hur, hdown]
  · simp [getUserSessions, hur, hdown]
  · simp [invalidateAllUserSessions, getUserSessions, hur, hdown, invalidateLoop]

/-- Witness: a manager whose Redis client raises on every command. -/
theorem redis_down_fallback_witness :
    (createSession (mkRedisDownMgr 900) 0 "s1" "u1" "PATIENT" []).2 =
      storeInMemory (mkRedisDownMgr 900) 0 "s1" (mkSessionData 0 "u1" "PATIENT" []) ∧
    ((validateSession (createSession (mkRedisDownMgr 900) 0 "s1" "u1" "PATIENT" []).2
      0 "s1").1).isSome = true ∧
    validateSession (mkRedisDownMgr 900) 0 "s1" =
      validateInMemory (mkRedisDownMgr 900) 0 "s1" ∧
    invalidateSession (mkRedisDownMgr 900) 0 "s1" =
      invalidateInMemory (mkRedisDownMgr 900) "s1" ∧
    getUserSessions (mkRedisDownMgr 900) 0 "u1" = [] ∧
    invalidateAllUserSessions (mkRedisDownMgr 900) 0 "u1" = (0, mkRedisDownMgr 900) :=
  redis_down_fallback (mkRedisDownMgr 900) 0 "s1" "u1" "PATIENT" [] rfl rfl

/-- C4 counterexample to the claim as stated: with the primary raising, the
fallback map holds a session of `u1` (written there by `create_session`),
yet `get_user_sessions` reports no sessions at all — the enumeration does
not complete via the process-local fallback map. -/
theorem redis_down_enumeration_empty :
    getUserSessions (createSession (mkRedisDownMgr 900) 0 "s1" "u1" "PATIENT" []).2
      5 "u1" = [] ∧
    memHas (createSession (mkRedisDownMgr 900) 0 "s1" "u1" "PATIENT" []).2.mem "s1"
      = true ∧
    userMatch "u1" ((memGet (createSession (mkRedisDownMgr 900) 0 "s1" "u1"
      "PATIENT" []).2.mem "s1").getD []) = true := by decide

/-! ### Request authentication (claims C6, C8, C10) and logout (C9) -/

theorem afterSession_fields (m : Mgr) (u : String) (r : Option String)
    (uo : String → Bool) (ro : Option String → Bool) (db : String → Option UserRec)
    (c : Bool) :
    (afterSession m u r uo ro db c).mgr = m ∧
    (afterSession m u r uo ro db c).storeConsulted = c ∧
    (afterSession m u r uo ro db c).outcome ≠ AuthOutcome.sessionExpired := by
  cases hu : uo u
  · simp [afterSession, hu]
  · cases hr2 : ro r
    · simp [afterSession, hu, hr2]
    · cases hd : db u <;> simp [afterSession, hu, hr2, hd]

theorem afterSession_ok (m : Mgr) (u : String) (r : Option String)
    (uo : String → Bool) (ro : Option String → Bool) (db : String → Option UserRec)
    (c : Bool) (usr : UserRec)
    (hu : uo u = true) (hr2 : ro r = true) (hd : db u = some usr) :
    afterSession m u r uo ro db c = ⟨AuthOutcome.ok usr, m, c⟩ := by
  simp [afterSession, hu, hr2, hd]

/-- C6: in `get_current_user`, when the token carries a (truthy) session id,
a `validate_session` miss is rejected with the distinct session-expired
error, while a hit whose stored `user_id` differs from the token subject is
rejected with the generic credentials error. -/
theorem auth_error_taxonomy (m : Mgr) (now : Nat) (p : Payload) (sub sid : String)
    (uuidOk : String → Bool) (roleOk : Option String → Bool)
    (db : String → Option UserRec)
    (hsub : p.sub = some sub) (hsid : p.session_id = some sid) (hne : sid ≠ "") :
    ((validateSession m now sid).1 = none →
      (getCurrentUser m now (some p) uuidOk roleOk db).outcome =
        AuthOutcome.sessionExpired) ∧
    (∀ d, (validateSession m now sid).1 = some d →
      dGet d "user_id" ≠ some (Val.str sub) →
      (getCurrentUser m now (some p) uuidOk roleOk db).outcome =
        AuthOutcome.credentialsError) := by
  have hb : (sid == "") = false := by simpa using hne
  constructor
  · intro hv
    simp [getCurrentUser, hsub, hsid, hb, hv]
  · intro d hv hneq
    have hbne : (dGet d "user_id" != some (Val.str sub)) = true := by simpa using hneq
    simp [getCurrentUser, hsub, hsid, hb, hv, hbne]

/-- Witness: with a freshly created session `s1` of user `u1`, an unknown id
is rejected as session-expired and a subject mismatch as credentials error. -/
theorem auth_error_taxonomy_witness :
    (getCurrentUser (createSession (mkMemMgr 900) 0 "s1" "u1" "PATIENT" []).2 5
      (some ⟨some "u1", some "PATIENT", some "sX"⟩) (fun _ => true) (fun _ => true)
      (fun _ => none)).outcome = AuthOutcome.sessionExpired ∧
    (getCurrentUser (createSession (mkMemMgr 900) 0 "s1" "u1" "PATIENT" []).2 5
      (some ⟨some "uX", some "PATIENT", some "s1"⟩) (fun _ => true) (fun _ => true)
      (fun _ => none)).outcome = AuthOutcome.credentialsError :=
  ⟨(auth_error_taxonomy (createSession (mkMemMgr 900) 0 "s1" "u1" "PATIENT" []).2 5
      ⟨some "u1", some "PATIENT", some "sX"⟩ "u1" "sX" (fun _ => true) (fun _ => true)
      (fun _ => none) rfl rfl (by decide)).1 (by decide),
    (auth_error_taxonomy (createSession (mkMemMgr 900) 0 "s1" "u1" "PATIENT" []).2 5
      ⟨some "uX", some "PATIENT", some "s1"⟩ "uX" "s1" (fun _ => true) (fun _ => true)
      (fun _ => none) rfl rfl (by decide)).2
      (((validateSession (createSession (mkMemMgr 900) 0 "s1" "u1" "PATIENT" []).2 5
        "s1").1).getD []) (by decide) (by decide)⟩

/-- C8: a decodable token with no `session_id` claim is processed without
ever consulting the session store (state unchanged, consulted flag false), a
session-expired rejection is impossible, and the request is allowed whenever
the remaining non-session checks pass. -/
theorem missing_session_id_bypass (m : Mgr) (now : Nat) (p : Payload)
    (uuidOk : String → Bool) (roleOk : Option String → Bool)
    (db : String → Option UserRec) (h : p.session_id = none) :
    (getCurrentUser m now (some p) uuidOk roleOk db).storeConsulted = false ∧
    (getCurrentUser m now (some p) uuidOk roleOk db).mgr = m ∧
    (getCurrentUser m now (some p) uuidOk roleOk db).outcome ≠
      AuthOutcome.sessionExpired ∧
    (∀ sub usr, p.sub = some sub → uuidOk sub = true → roleOk p.role = true →
      db sub = some usr →
      (getCurrentUser m now (some p) uuidOk roleOk db).outcome =
        AuthOutcome.ok usr) := by
  cases hsub : p.sub with
  | none =>
    refine ⟨by simp [getCurrentUser, hsub], by simp [getCurrentUser, hsub],
      by simp [getCurrentUser, hsub], ?_⟩
    intro sub usr hs
    cases hs
  | some s =>
    have hg : getCurrentUser m now (some p) uuidOk roleOk db =
        afterSession m s p.role uuidOk roleOk db false := by
      simp [getCurrentUser, hsub, h]
    obtain ⟨f1, f2, f3⟩ :=
      afterSession_fields m s p.role uuidOk roleOk db false
    refine ⟨by rw [hg]; exact f2, by rw [hg]; exact f1, by rw [hg]; exact f3, ?_⟩
    intro sub usr hs hu hr2 hd
    cases hs
    rw [hg, afterSession_ok m s p.role uuidOk roleOk db false usr hu hr2 hd]

/-- Witness: a session-less token of `u1` is allowed on the other checks
alone, with the store untouched. -/
theorem missing_session_id_bypass_witness :
    (getCurrentUser (mkMemMgr 900) 0 (some ⟨some "u1", some "PATIENT", none⟩)
      uuidAlways roleAlways dbU1).storeConsulted = false ∧
    (getCurrentUser (mkMemMgr 900) 0 (some ⟨some "u1", some "PATIENT", none⟩)
      uuidAlways roleAlways dbU1).mgr = mkMemMgr 900 ∧
    (getCurrentUser (mkMemMgr 900) 0 (some ⟨some "u1", some "PATIENT", none⟩)
      uuidAlways roleAlways dbU1).outcome =
      AuthOutcome.ok ⟨"u1", "PATIENT", true⟩ :=
  have h := missing_session_id_bypass (mkMemMgr 900) 0
    ⟨some "u1", some "PATIENT", none⟩ uuidAlways roleAlways dbU1 rfl
  ⟨h.1, h.2.1, h.2.2.2 "u1" ⟨"u1", "PATIENT", true⟩ rfl rfl rfl (by decide)⟩

/-- C10: a token whose `session_id` claim is the empty string is handled
exactly like a token with no `session_id` claim: the truthiness guard skips
session validation, so the store is not consulted and no session-expired
rejection can occur. -/
theorem empty_session_id_bypass (m : Mgr) (now : Nat) (p : Payload)
    (uuidOk : String → Bool) (roleOk : Option String → Bool)
    (db : String → Option UserRec) (h : p.session_id = some "") :
    getCurrentUser m now (some p) uuidOk roleOk db =
      getCurrentUser m now (some { p with session_id := none }) uuidOk roleOk db ∧
    (getCurrentUser m now (some p) uuidOk roleOk db).storeConsulted = false ∧
    (getCurrentUser m now (some p) uuidOk roleOk db).outcome ≠
      AuthOutcome.sessionExpired := by
  cases hsub : p.sub with
  | none => simp [getCurrentUser, hsub]
  | some s =>
    have hg : getCurrentUser m now (some p) uuidOk roleOk db =
        afterSession m s p.role uuidOk roleOk db false := by
      simp [getCurrentUser, hsub, h]
    have hg2 : getCurrentUser m now
        (some { sub := some s, role := p.role, session_id := none })
        uuidOk roleOk db = afterSession m s p.role uuidOk roleOk db false := by
      simp [getCurrentUser]
    obtain ⟨_, f2, f3⟩ := afterSession_fields m s p.role uuidOk roleOk db false
    exact ⟨by rw [hg, hg2], by rw [hg]; exact f2, by rw [hg]; exact f3⟩

/-- Witness: empty-string and absent `session_id` produce identical results,
with the store never consulted. -/
theorem empty_session_id_bypass_witness :
    getCurrentUser (createSession (mkMemMgr 900) 0 "s1" "u1" "PATIENT" []).2 5
      (some ⟨some "u1", some "PATIENT", some ""⟩) (fun _ => true) (fun _ => true)
      (fun _ => none) =
      getCurrentUser (createSession (mkMemMgr 900) 0 "s1" "u1" "PATIENT" []).2 5
        (some ⟨some "u1", some "PATIENT", none⟩) (fun _ => true) (fun _ => true)
        (fun _ => none) ∧
    (getCurrentUser (createSession (mkMemMgr 900) 0 "s1" "u1" "PATIENT" []).2 5
      (some ⟨some "u1", some "PATIENT", some ""⟩) (fun _ => true) (fun _ => true)
      (fun _ => none)).storeConsulted = false ∧
    (getCurrentUser (createSession (mkMemMgr 900) 0 "s1" "u1" "PATIENT" []).2 5
      (some ⟨some "u1", some "PATIENT", some ""⟩) (fun _ => true) (fun _ => true)
      (fun _ => none)).outcome ≠ AuthOutcome.sessionExpired :=
  empty_session_id_bypass (createSession (mkMemMgr 900) 0 "s1" "u1" "PATIENT" []).2 5
    ⟨some "u1", some "PATIENT", some ""⟩ (fun _ => true) (fun _ => true)
    (fun _ => none) rfl

/-- C9: the logout handler always returns a success (HTTP 200) body, and
when the underlying invalidation raises, the failure surfaces only as the
soft flag `session_invalidated = false`, never as a raised error. -/
theorem logout_reports_success (decoded : Option Payload)
    (inv : Except Unit Bool) :
    (∃ r, logout decoded inv = HttpReply.success r) ∧
    (inv = Except.error () →
      ∃ r, logout decoded inv = HttpReply.success r ∧
        r.session_invalidated = false) := by
  cases decoded with
  | none => exact ⟨⟨_, rfl⟩, fun _ => ⟨_, rfl, rfl⟩⟩
  | some p =>
    cases hs : (p.session_id.getD "" == "")
    · cases inv with
      | ok b =>
        cases b with
        | false =>
          have hl : logout (some p) (Except.ok false) =
              HttpReply.success ⟨"Session not found or already expired", false⟩ := by
            simp [logout, hs]
          exact ⟨⟨_, hl⟩, fun he => by cases he⟩
        | true =>
          have hl : logout (some p) (Except.ok true) =
              HttpReply.success ⟨"Logged out successfully", true⟩ := by
            simp [logout, hs]
          exact ⟨⟨_, hl⟩, fun he => by cases he⟩
      | error e =>
        have hl : logout (some p) (Except.error e) =
            HttpReply.success ⟨"Logged out", false⟩ := by
          simp [logout, hs]
        exact ⟨⟨_, hl⟩, fun _ => ⟨_, hl, rfl⟩⟩
    · have hl : logout (some p) inv =
          HttpReply.success ⟨"Logged out (no active session)", false⟩ := by
        simp [logout, hs]
      exact ⟨⟨_, hl⟩, fun _ => ⟨_, hl, rfl⟩⟩

/-- Witness: a raising invalidation still yields a success body with the
soft flag false. -/
theorem logout_reports_success_witness :
    (∃ r, logout (some ⟨some "u1", some "PATIENT", some "s1"⟩) (Except.error ()) =
      HttpReply.success r) ∧
    (Except.error () = (Except.error () : Except Unit Bool) →
      ∃ r, logout (some ⟨some "u1", some "PATIENT", some "s1"⟩) (Except.error ()) =
        HttpReply.success r ∧ r.session_invalidated = false) :=
  logout_reports_success (some ⟨some "u1", some "PATIENT", some "s1"⟩)
    (Except.error ())

end Healthbridge
